import Mathlib

/-!
Shallow embedding of the RISC-V simulator backend (parser.js, decoder.js,
executor.js, Simulator.js, simulatorController.js) and proofs about it.

JavaScript numbers are modelled as `Int` (exact for the integer ranges the
simulator manipulates); the 32-bit coercions `| 0` and `>>> 0` are modelled
explicitly.  Sparse JS arrays used as byte memory (reads are
`state.memory[addr] || 0`) are modelled as total functions `Int → Nat`
defaulting to 0.
-/

set_option maxRecDepth 8000

/-- JS ToInt32: take the value modulo 2^32 and reinterpret as signed
(this is what the `| 0` coercion in the source computes). -/
def toInt32 (x : Int) : Int :=
  if x % 4294967296 < 2147483648 then x % 4294967296 else x % 4294967296 - 4294967296

/-- JS ToUint32 (the `>>> 0` coercion): value modulo 2^32, non-negative. -/
def toUint32 (x : Int) : Int := x % 4294967296

/-- The unsigned 32-bit pattern of a JS number, as a natural number. -/
def toUint32Nat (x : Int) : Nat := (x % 4294967296).toNat

/-- JS bitwise AND on 32-bit patterns (`a & b`). -/
def jsAnd (a b : Int) : Int :=
  toInt32 (Int.ofNat (Nat.land (toUint32Nat a) (toUint32Nat b)))

/-- JS bitwise OR on 32-bit patterns (`a | b`). -/
def jsOr (a b : Int) : Int :=
  toInt32 (Int.ofNat (Nat.lor (toUint32Nat a) (toUint32Nat b)))

/-- JS bitwise XOR on 32-bit patterns (`a ^ b`). -/
def jsXor (a b : Int) : Int :=
  toInt32 (Int.ofNat (Nat.xor (toUint32Nat a) (toUint32Nat b)))

/-- JS left shift `a << s` for a shift amount already reduced mod 32. -/
def jsShl (a : Int) (s : Nat) : Int :=
  toInt32 (Int.ofNat (toUint32Nat a * 2 ^ s))

/-- JS unsigned right shift then `| 0`, as in `(rs1Val >>> shamt) | 0`. -/
def jsShrU (a : Int) (s : Nat) : Int :=
  toInt32 (Int.ofNat (toUint32Nat a / 2 ^ s))

/-- JS arithmetic right shift `a >> s`: floor division of the signed
32-bit reinterpretation by 2^s. -/
def jsShrS (a : Int) (s : Nat) : Int :=
  Int.fdiv (toInt32 a) (Int.ofNat (2 ^ s))

/-- Byte k (little-endian position) of the 32-bit pattern of v, as written by
the adapter's writeHalfWord/writeWord: `(val >> 8*k) & 0xFF`. -/
def byteAt (v : Int) (k : Nat) : Nat :=
  toUint32Nat v / 2 ^ (8 * k) % 256

/-- Decoded instruction — the object produced by decoder.js `decode`.
Fields that a given format does not set are `none` (JS `undefined`). -/
structure Decoded where
  opcode : String
  dtype : String
  format : String
  index : Nat
  lineNum : Nat
  original : String
  rd : Option Nat
  rs1 : Option Nat
  rs2 : Option Nat
  imm : Option Int
  shamt : Option Nat
  label : Option String
deriving DecidableEq, Repr

/-- The plain machine-state object threaded by simulatorController.js:
registers as a JS array of 32 numbers, memory as a sparse byte array
(reads default to 0 via the `|| 0` in the executor's adapter). -/
structure MachineState where
  registers : List Int
  memory : Int → Nat
  pc : Int
  halted : Bool

/-- Adapter `getRegister`: `(r) => r === 0 ? 0 : state.registers[r]`
(reads of a missing index are modelled as 0; decode guarantees r ≤ 31). -/
def adapterGetRegister (ms : MachineState) (r : Nat) : Int :=
  if r = 0 then 0 else ms.registers.getD r 0

/-- Adapter `setRegister`: `(r, v) => { if (r !== 0) state.registers[r] = v | 0 }`
(decode guarantees r ≤ 31, so `List.set` mirrors the array store). -/
def adapterSetRegister (ms : MachineState) (r : Nat) (v : Int) : MachineState :=
  if r = 0 then ms else { ms with registers := ms.registers.set r (toInt32 v) }

def memWrite (ms : MachineState) (addr : Int) (v : Nat) : MachineState :=
  { ms with memory := fun a => if a = addr then v else ms.memory a }

/-- Adapter `readByte`: fetch the byte then sign-extend (`val > 127 ? val - 256 : val`). -/
def adapterReadByte (ms : MachineState) (addr : Int) : Int :=
  let val := ms.memory addr
  if val > 127 then (val : Int) - 256 else (val : Int)

def adapterReadByteUnsigned (ms : MachineState) (addr : Int) : Int :=
  (ms.memory addr : Int)

/-- Adapter `readHalfWord`: `low | (high << 8)` (= low + 256*high for bytes),
then manual sign extension (`value > 32767 ? value - 65536 : value`). -/
def adapterReadHalfWord (ms : MachineState) (addr : Int) : Int :=
  let value := ms.memory addr + 256 * ms.memory (addr + 1)
  if value > 32767 then (value : Int) - 65536 else (value : Int)

def adapterReadHalfWordUnsigned (ms : MachineState) (addr : Int) : Int :=
  (ms.memory addr + 256 * ms.memory (addr + 1) : Int)

/-- Adapter `readWord`: `b0 | (b1<<8) | (b2<<16) | (b3<<24)`; the bytes occupy
disjoint bit ranges so the OR is a sum, and `b3 << 24` makes the result a
signed 32-bit value. -/
def adapterReadWord (ms : MachineState) (addr : Int) : Int :=
  toInt32 (Int.ofNat (ms.memory addr + 256 * ms.memory (addr + 1) +
    65536 * ms.memory (addr + 2) + 16777216 * ms.memory (addr + 3)))

/-- Adapter `writeByte`: `state.memory[addr] = val & 0xFF`. -/
def adapterWriteByte (ms : MachineState) (addr : Int) (v : Int) : MachineState :=
  memWrite ms addr (byteAt v 0)

/-- Adapter `writeHalfWord`: stores `val & 0xFF` and `(val >> 8) & 0xFF`. -/
def adapterWriteHalfWord (ms : MachineState) (addr : Int) (v : Int) : MachineState :=
  memWrite (memWrite ms addr (byteAt v 0)) (addr + 1) (byteAt v 1)

/-- Adapter `writeWord`: stores the four little-endian bytes of `val`. -/
def adapterWriteWord (ms : MachineState) (addr : Int) (v : Int) : MachineState :=
  memWrite (memWrite (memWrite (memWrite ms addr (byteAt v 0))
    (addr + 1) (byteAt v 1)) (addr + 2) (byteAt v 2)) (addr + 3) (byteAt v 3)

def incrementPC (ms : MachineState) : MachineState := { ms with pc := ms.pc + 1 }

def setPC (ms : MachineState) (v : Int) : MachineState := { ms with pc := v }

def haltMachine (ms : MachineState) : MachineState := { ms with halted := true }

/-- Shift amount of a shift-immediate: `decoded.shamt || (decoded.imm & 0x1F)`
(JS `||` also falls through when shamt is 0, which yields the same value
because the decoder sets shamt from the same immediate). -/
def shamtOf (d : Decoded) : Nat :=
  match d.shamt with
  | some s => if s = 0 then toUint32Nat (d.imm.getD 0) % 32 else s
  | none => toUint32Nat (d.imm.getD 0) % 32

def executeADD (d : Decoded) (ms : MachineState) : MachineState :=
  let rs1Val := adapterGetRegister ms (d.rs1.getD 0)
  let rs2Val := adapterGetRegister ms (d.rs2.getD 0)
  incrementPC (adapterSetRegister ms (d.rd.getD 0) (toInt32 (rs1Val + rs2Val)))

def executeSUB (d : Decoded) (ms : MachineState) : MachineState :=
  let rs1Val := adapterGetRegister ms (d.rs1.getD 0)
  let rs2Val := adapterGetRegister ms (d.rs2.getD 0)
  incrementPC (adapterSetRegister ms (d.rd.getD 0) (toInt32 (rs1Val - rs2Val)))

def executeSLL (d : Decoded) (ms : MachineState) : MachineState :=
  let rs1Val := adapterGetRegister ms (d.rs1.getD 0)
  let rs2Val := adapterGetRegister ms (d.rs2.getD 0)
  let shamt := toUint32Nat rs2Val % 32
  incrementPC (adapterSetRegister ms (d.rd.getD 0) (jsShl rs1Val shamt))

def executeSLT (d : Decoded) (ms : MachineState) : MachineState :=
  let rs1Val := adapterGetRegister ms (d.rs1.getD 0)
  let rs2Val := adapterGetRegister ms (d.rs2.getD 0)
  incrementPC (adapterSetRegister ms (d.rd.getD 0) (if rs1Val < rs2Val then 1 else 0))

def executeSLTU (d : Decoded) (ms : MachineState) : MachineState :=
  let rs1Val := toUint32 (adapterGetRegister ms (d.rs1.getD 0))
  let rs2Val := toUint32 (adapterGetRegister ms (d.rs2.getD 0))
  incrementPC (adapterSetRegister ms (d.rd.getD 0) (if rs1Val < rs2Val then 1 else 0))

def executeXOR (d : Decoded) (ms : MachineState) : MachineState :=
  let rs1Val := adapterGetRegister ms (d.rs1.getD 0)
  let rs2Val := adapterGetRegister ms (d.rs2.getD 0)
  incrementPC (adapterSetRegister ms (d.rd.getD 0) (jsXor rs1Val rs2Val))

def executeSRL (d : Decoded) (ms : MachineState) : MachineState :=
  let rs1Val := adapterGetRegister ms (d.rs1.getD 0)
  let rs2Val := adapterGetRegister ms (d.rs2.getD 0)
  let shamt := toUint32Nat rs2Val % 32
  incrementPC (adapterSetRegister ms (d.rd.getD 0) (jsShrU rs1Val shamt))

def executeSRA (d : Decoded) (ms : MachineState) : MachineState :=
  let rs1Val := adapterGetRegister ms (d.rs1.getD 0)
  let rs2Val := adapterGetRegister ms (d.rs2.getD 0)
  let shamt := toUint32Nat rs2Val % 32
  incrementPC (adapterSetRegister ms (d.rd.getD 0) (toInt32 (jsShrS rs1Val shamt)))

def executeOR (d : Decoded) (ms : MachineState) : MachineState :=
  let rs1Val := adapterGetRegister ms (d.rs1.getD 0)
  let rs2Val := adapterGetRegister ms (d.rs2.getD 0)
  incrementPC (adapterSetRegister ms (d.rd.getD 0) (jsOr rs1Val rs2Val))

def executeAND (d : Decoded) (ms : MachineState) : MachineState :=
  let rs1Val := adapterGetRegister ms (d.rs1.getD 0)
  let rs2Val := adapterGetRegister ms (d.rs2.getD 0)
  incrementPC (adapterSetRegister ms (d.rd.getD 0) (jsAnd rs1Val rs2Val))

def executeADDI (d : Decoded) (ms : MachineState) : MachineState :=
  let rs1Val := adapterGetRegister ms (d.rs1.getD 0)
  incrementPC (adapterSetRegister ms (d.rd.getD 0) (toInt32 (rs1Val + d.imm.getD 0)))

def executeSLTI (d : Decoded) (ms : MachineState) : MachineState :=
  let rs1Val := adapterGetRegister ms (d.rs1.getD 0)
  incrementPC (adapterSetRegister ms (d.rd.getD 0) (if rs1Val < d.imm.getD 0 then 1 else 0))

def executeSLTIU (d : Decoded) (ms : MachineState) : MachineState :=
  let rs1Val := toUint32 (adapterGetRegister ms (d.rs1.getD 0))
  let imm := toUint32 (d.imm.getD 0)
  incrementPC (adapterSetRegister ms (d.rd.getD 0) (if rs1Val < imm then 1 else 0))

def executeXORI (d : Decoded) (ms : MachineState) : MachineState :=
  let rs1Val := adapterGetRegister ms (d.rs1.getD 0)
  incrementPC (adapterSetRegister ms (d.rd.getD 0) (jsXor rs1Val (d.imm.getD 0)))

def executeORI (d : Decoded) (ms : MachineState) : MachineState :=
  let rs1Val := adapterGetRegister ms (d.rs1.getD 0)
  incrementPC (adapterSetRegister ms (d.rd.getD 0) (jsOr rs1Val (d.imm.getD 0)))

def executeANDI (d : Decoded) (ms : MachineState) : MachineState :=
  let rs1Val := adapterGetRegister ms (d.rs1.getD 0)
  incrementPC (adapterSetRegister ms (d.rd.getD 0) (jsAnd rs1Val (d.imm.getD 0)))

def executeSLLI (d : Decoded) (ms : MachineState) : MachineState :=
  let rs1Val := adapterGetRegister ms (d.rs1.getD 0)
  incrementPC (adapterSetRegister ms (d.rd.getD 0) (jsShl rs1Val (shamtOf d)))

def executeSRLI (d : Decoded) (ms : MachineState) : MachineState :=
  let rs1Val := adapterGetRegister ms (d.rs1.getD 0)
  incrementPC (adapterSetRegister ms (d.rd.getD 0) (jsShrU rs1Val (shamtOf d)))

def executeSRAI (d : Decoded) (ms : MachineState) : MachineState :=
  let rs1Val := adapterGetRegister ms (d.rs1.getD 0)
  incrementPC (adapterSetRegister ms (d.rd.getD 0) (toInt32 (jsShrS rs1Val (shamtOf d))))

def executeLB (d : Decoded) (ms : MachineState) : MachineState :=
  let rs1Val := adapterGetRegister ms (d.rs1.getD 0)
  let address := toInt32 (rs1Val + d.imm.getD 0)
  incrementPC (adapterSetRegister ms (d.rd.getD 0) (adapterReadByte ms address))

def executeLH (d : Decoded) (ms : MachineState) : MachineState :=
  let rs1Val := adapterGetRegister ms (d.rs1.getD 0)
  let address := toInt32 (rs1Val + d.imm.getD 0)
  incrementPC (adapterSetRegister ms (d.rd.getD 0) (adapterReadHalfWord ms address))

def executeLW (d : Decoded) (ms : MachineState) : MachineState :=
  let rs1Val := adapterGetRegister ms (d.rs1.getD 0)
  let address := toInt32 (rs1Val + d.imm.getD 0)
  incrementPC (adapterSetRegister ms (d.rd.getD 0) (adapterReadWord ms address))

def executeLBU (d : Decoded) (ms : MachineState) : MachineState :=
  let rs1Val := adapterGetRegister ms (d.rs1.getD 0)
  let address := toInt32 (rs1Val + d.imm.getD 0)
  incrementPC (adapterSetRegister ms (d.rd.getD 0) (adapterReadByteUnsigned ms address))

def executeLHU (d : Decoded) (ms : MachineState) : MachineState :=
  let rs1Val := adapterGetRegister ms (d.rs1.getD 0)
  let address := toInt32 (rs1Val + d.imm.getD 0)
  incrementPC (adapterSetRegister ms (d.rd.getD 0) (adapterReadHalfWordUnsigned ms address))

def executeSB (d : Decoded) (ms : MachineState) : MachineState :=
  let rs1Val := adapterGetRegister ms (d.rs1.getD 0)
  let rs2Val := adapterGetRegister ms (d.rs2.getD 0)
  let address := toInt32 (rs1Val + d.imm.getD 0)
  incrementPC (adapterWriteByte ms address (jsAnd rs2Val 255))

def executeSH (d : Decoded) (ms : MachineState) : MachineState :=
  let rs1Val := adapterGetRegister ms (d.rs1.getD 0)
  let rs2Val := adapterGetRegister ms (d.rs2.getD 0)
  let address := toInt32 (rs1Val + d.imm.getD 0)
  incrementPC (adapterWriteHalfWord ms address (jsAnd rs2Val 65535))

def executeSW (d : Decoded) (ms : MachineState) : MachineState :=
  let rs1Val := adapterGetRegister ms (d.rs1.getD 0)
  let rs2Val := adapterGetRegister ms (d.rs2.getD 0)
  let address := toInt32 (rs1Val + d.imm.getD 0)
  incrementPC (adapterWriteWord ms address rs2Val)

/-- Branch offset conversion `Math.floor(decoded.imm / 4)` (floor division). -/
def branchOffset (d : Decoded) : Int := Int.fdiv (d.imm.getD 0) 4

def executeBEQ (d : Decoded) (ms : MachineState) : MachineState :=
  let rs1Val := adapterGetRegister ms (d.rs1.getD 0)
  let rs2Val := adapterGetRegister ms (d.rs2.getD 0)
  if rs1Val = rs2Val then setPC ms (ms.pc + branchOffset d) else incrementPC ms

def executeBNE (d : Decoded) (ms : MachineState) : MachineState :=
  let rs1Val := adapterGetRegister ms (d.rs1.getD 0)
  let rs2Val := adapterGetRegister ms (d.rs2.getD 0)
  if rs1Val ≠ rs2Val then setPC ms (ms.pc + branchOffset d) else incrementPC ms

def executeBLT (d : Decoded) (ms : MachineState) : MachineState :=
  let rs1Val := adapterGetRegister ms (d.rs1.getD 0)
  let rs2Val := adapterGetRegister ms (d.rs2.getD 0)
  if rs1Val < rs2Val then setPC ms (ms.pc + branchOffset d) else incrementPC ms

def executeBGE (d : Decoded) (ms : MachineState) : MachineState :=
  let rs1Val := adapterGetRegister ms (d.rs1.getD 0)
  let rs2Val := adapterGetRegister ms (d.rs2.getD 0)
  if rs1Val ≥ rs2Val then setPC ms (ms.pc + branchOffset d) else incrementPC ms

def executeBLTU (d : Decoded) (ms : MachineState) : MachineState :=
  let rs1Val := toUint32 (adapterGetRegister ms (d.rs1.getD 0))
  let rs2Val := toUint32 (adapterGetRegister ms (d.rs2.getD 0))
  if rs1Val < rs2Val then setPC ms (ms.pc + branchOffset d) else incrementPC ms

def executeBGEU (d : Decoded) (ms : MachineState) : MachineState :=
  let rs1Val := toUint32 (adapterGetRegister ms (d.rs1.getD 0))
  let rs2Val := toUint32 (adapterGetRegister ms (d.rs2.getD 0))
  if rs1Val ≥ rs2Val then setPC ms (ms.pc + branchOffset d) else incrementPC ms

def executeJAL (d : Decoded) (ms : MachineState) : MachineState :=
  let returnAddress := ms.pc + 1
  let ms1 := adapterSetRegister ms (d.rd.getD 0) returnAddress
  setPC ms1 (ms.pc + branchOffset d)

def executeJALR (d : Decoded) (ms : MachineState) : MachineState :=
  let rs1Val := adapterGetRegister ms (d.rs1.getD 0)
  let returnAddress := ms.pc + 1
  let targetPC :=
    if rs1Val < 1000 then rs1Val + Int.fdiv (d.imm.getD 0) 4
    else Int.fdiv (jsAnd (rs1Val + d.imm.getD 0) (-2)) 4
  let ms1 := adapterSetRegister ms (d.rd.getD 0) returnAddress
  setPC ms1 targetPC

def executeLUI (d : Decoded) (ms : MachineState) : MachineState :=
  incrementPC (adapterSetRegister ms (d.rd.getD 0) (d.imm.getD 0))

def executeAUIPC (d : Decoded) (ms : MachineState) : MachineState :=
  let pcBytes := ms.pc * 4
  incrementPC (adapterSetRegister ms (d.rd.getD 0) (toInt32 (pcBytes + d.imm.getD 0)))

def executeHLT (_d : Decoded) (ms : MachineState) : MachineState :=
  haltMachine ms

/-- executor.js `execute` as invoked by the controller: the state object has
an array `registers` field, so the inline adapter branch is taken and the
opcode switch dispatches to the per-opcode handlers. -/
def executeInstr (d : Decoded) (ms : MachineState) : Except String MachineState :=
  match d.opcode with
  | "ADD" => .ok (executeADD d ms)
  | "SUB" => .ok (executeSUB d ms)
  | "SLL" => .ok (executeSLL d ms)
  | "SLT" => .ok (executeSLT d ms)
  | "SLTU" => .ok (executeSLTU d ms)
  | "XOR" => .ok (executeXOR d ms)
  | "SRL" => .ok (executeSRL d ms)
  | "SRA" => .ok (executeSRA d ms)
  | "OR" => .ok (executeOR d ms)
  | "AND" => .ok (executeAND d ms)
  | "ADDI" => .ok (executeADDI d ms)
  | "SLTI" => .ok (executeSLTI d ms)
  | "SLTIU" => .ok (executeSLTIU d ms)
  | "XORI" => .ok (executeXORI d ms)
  | "ORI" => .ok (executeORI d ms)
  | "ANDI" => .ok (executeANDI d ms)
  | "SLLI" => .ok (executeSLLI d ms)
  | "SRLI" => .ok (executeSRLI d ms)
  | "SRAI" => .ok (executeSRAI d ms)
  | "LB" => .ok (executeLB d ms)
  | "LH" => .ok (executeLH d ms)
  | "LW" => .ok (executeLW d ms)
  | "LBU" => .ok (executeLBU d ms)
  | "LHU" => .ok (executeLHU d ms)
  | "SB" => .ok (executeSB d ms)
  | "SH" => .ok (executeSH d ms)
  | "SW" => .ok (executeSW d ms)
  | "BEQ" => .ok (executeBEQ d ms)
  | "BNE" => .ok (executeBNE d ms)
  | "BLT" => .ok (executeBLT d ms)
  | "BGE" => .ok (executeBGE d ms)
  | "BLTU" => .ok (executeBLTU d ms)
  | "BGEU" => .ok (executeBGEU d ms)
  | "JAL" => .ok (executeJAL d ms)
  | "JALR" => .ok (executeJALR d ms)
  | "LUI" => .ok (executeLUI d ms)
  | "AUIPC" => .ok (executeAUIPC d ms)
  | "HLT" => .ok (executeHLT d ms)
  | _ => .error ("Execution not implemented for: " ++ d.opcode)

/-! Simulator.js: register file accessors and memory-address validation. -/

/-- Simulator.js `getRegister`: range check, then x0 reads as 0. -/
def simGetRegister (registers : List Int) (reg : Nat) : Except String Int :=
  if reg > 31 then .error "Invalid register"
  else if reg = 0 then .ok 0 else .ok (registers.getD reg 0)

/-- Simulator.js `setRegister`: range check, writes to x0 are silently
discarded, other writes are coerced with `| 0`. -/
def simSetRegister (registers : List Int) (reg : Nat) (value : Int) :
    Except String (List Int) :=
  if reg > 31 then .error "Invalid register"
  else if reg ≠ 0 then .ok (registers.set reg (toInt32 value)) else .ok registers

/-- Simulator.js `validateAddress`: bounds check against the memory byte
length, then alignment for 2- and 4-byte accesses. -/
def validateAddress (memByteLength : Nat) (address : Int) (size : Nat) :
    Except String Unit :=
  if address < 0 ∨ address + size > memByteLength then
    .error "Memory access violation"
  else if size = 2 ∧ address % 2 ≠ 0 then
    .error "Unaligned half-word access"
  else if size = 4 ∧ address % 4 ≠ 0 then
    .error "Unaligned word access"
  else .ok ()

/-! decoder.js -/

/-- Opcode table of decoder.js, mnemonic to type tag (the funct3/funct7
fields of the table are never read by `decode` and are elided). -/
def opcodesTable : List (String × String) :=
  [("ADD", "R"), ("SUB", "R"), ("SLL", "R"), ("SLT", "R"), ("SLTU", "R"),
   ("XOR", "R"), ("SRL", "R"), ("SRA", "R"), ("OR", "R"), ("AND", "R"),
   ("ADDI", "I"), ("SLTI", "I"), ("SLTIU", "I"), ("XORI", "I"),
   ("ORI", "I"), ("ANDI", "I"), ("SLLI", "I"), ("SRLI", "I"), ("SRAI", "I"),
   ("LB", "IL"), ("LH", "IL"), ("LW", "IL"), ("LBU", "IL"), ("LHU", "IL"),
   ("SB", "S"), ("SH", "S"), ("SW", "S"),
   ("BEQ", "SB"), ("BNE", "SB"), ("BLT", "SB"), ("BGE", "SB"),
   ("BLTU", "SB"), ("BGEU", "SB"),
   ("JAL", "UJ"), ("JALR", "JALR"),
   ("LUI", "U"), ("AUIPC", "U"),
   ("HLT", "HLT")]

/-- Parsed instruction record — the object produced by parser.js.  Fields a
format does not set are `none` (JS `undefined`). -/
structure InstrRecord where
  opcode : String
  format : String
  index : Nat
  lineNum : Nat
  original : String
  rd : Option Nat
  rs1 : Option Nat
  rs2 : Option Nat
  imm : Option Int
  label : Option String
deriving DecidableEq, Repr

/-- decoder.js `signExtend`, written arithmetically on the 32-bit pattern:
the sign-bit test `value & (1 << (bits-1))` is bit `bits-1` of the pattern,
i.e. `u / 2^(bits-1) % 2 = 1`; on a 32-bit pattern `value | (-1 << bits)`
keeps the low `bits` bits and sets all higher bits, giving the pattern
`(2^32 - 2^bits) + u % 2^bits`; and `value & ((1 << bits) - 1)` is
`u % 2^bits`. -/
def signExtend (value : Int) (bits : Nat) : Int :=
  let u := toUint32Nat value
  if u / 2 ^ (bits - 1) % 2 = 1 then
    toInt32 (Int.ofNat (4294967296 - 2 ^ bits + u % 2 ^ bits))
  else
    Int.ofNat (u % 2 ^ bits)

/-- decoder.js `validateRegister` (register numbers are naturals here, so
only the upper bound can fail). -/
def validateRegisterNum (reg : Nat) : Except String Unit :=
  if reg > 31 then .error "Invalid register (must be x0-x31)" else .ok ()

def decodeRFormat (instruction : InstrRecord) (base : Decoded) :
    Except String Decoded :=
  match instruction.rd, instruction.rs1, instruction.rs2 with
  | some rd, some rs1, some rs2 =>
    let d := { base with rd := some rd, rs1 := some rs1, rs2 := some rs2 }
    match validateRegisterNum rd with
    | .error e => .error e
    | .ok _ =>
    match validateRegisterNum rs1 with
    | .error e => .error e
    | .ok _ =>
    match validateRegisterNum rs2 with
    | .error e => .error e
    | .ok _ => .ok d
  | _, _, _ => .error "missing operands"

def decodeIFormat (instruction : InstrRecord) (base : Decoded) :
    Except String Decoded :=
  match instruction.rd, instruction.rs1, instruction.imm with
  | some rd, some rs1, some imm =>
    let d1 := { base with rd := some rd, rs1 := some rs1,
                          imm := some (signExtend imm 12) }
    let shiftResult : Except String Decoded :=
      if instruction.opcode = "SLLI" ∨ instruction.opcode = "SRLI" ∨
         instruction.opcode = "SRAI" then
        if imm < 0 ∨ imm > 31 then .error "shift amount must be 0-31"
        else .ok { d1 with shamt := some imm.toNat }
      else .ok d1
    match shiftResult with
    | .error e => .error e
    | .ok d2 =>
    match validateRegisterNum rd with
    | .error e => .error e
    | .ok _ =>
    match validateRegisterNum rs1 with
    | .error e => .error e
    | .ok _ => .ok d2
  | _, _, _ => .error "missing operands"

def decodeLoadFormat (instruction : InstrRecord) (base : Decoded) :
    Except String Decoded :=
  match instruction.rd, instruction.rs1, instruction.imm with
  | some rd, some rs1, some imm =>
    let d := { base with rd := some rd, rs1 := some rs1,
                         imm := some (signExtend imm 12) }
    match validateRegisterNum rd with
    | .error e => .error e
    | .ok _ =>
    match validateRegisterNum rs1 with
    | .error e => .error e
    | .ok _ => .ok d
  | _, _, _ => .error "missing operands"

def decodeStoreFormat (instruction : InstrRecord) (base : Decoded) :
    Except String Decoded :=
  match instruction.rs1, instruction.rs2, instruction.imm with
  | some rs1, some rs2, some imm =>
    let d := { base with rs1 := some rs1, rs2 := some rs2,
                         imm := some (signExtend imm 12) }
    match validateRegisterNum rs1 with
    | .error e => .error e
    | .ok _ =>
    match validateRegisterNum rs2 with
    | .error e => .error e
    | .ok _ => .ok d
  | _, _, _ => .error "missing operands"

/-- decoder.js `decodeBranchFormat`: sign-extend from 13 bits, copy a truthy
label, reject odd offsets, then validate registers. -/
def decodeBranchFormat (instruction : InstrRecord) (base : Decoded) :
    Except String Decoded :=
  match instruction.rs1, instruction.rs2, instruction.imm with
  | some rs1, some rs2, some imm =>
    let d1 := { base with rs1 := some rs1, rs2 := some rs2,
                          imm := some (signExtend imm 13) }
    let d2 := match instruction.label with
      | some l => if l ≠ "" then { d1 with label := some l } else d1
      | none => d1
    if signExtend imm 13 % 2 ≠ 0 then .error "branch offset must be even"
    else
      match validateRegisterNum rs1 with
      | .error e => .error e
      | .ok _ =>
      match validateRegisterNum rs2 with
      | .error e => .error e
      | .ok _ => .ok d2
  | _, _, _ => .error "missing operands"

/-- decoder.js `decodeJALFormat`: sign-extend from 21 bits, copy a truthy
label, reject odd offsets, then validate rd. -/
def decodeJALFormat (instruction : InstrRecord) (base : Decoded) :
    Except String Decoded :=
  match instruction.rd, instruction.imm with
  | some rd, some imm =>
    let d1 := { base with rd := some rd, imm := some (signExtend imm 21) }
    let d2 := match instruction.label with
      | some l => if l ≠ "" then { d1 with label := some l } else d1
      | none => d1
    if signExtend imm 21 % 2 ≠ 0 then .error "jump offset must be even"
    else
      match validateRegisterNum rd with
      | .error e => .error e
      | .ok _ => .ok d2
  | _, _ => .error "missing operands"

/-- decoder.js `decodeJALRFormat`: sign-extend from 12 bits and validate
registers; note there is no evenness check here. -/
def decodeJALRFormat (instruction : InstrRecord) (base : Decoded) :
    Except String Decoded :=
  match instruction.rd, instruction.rs1, instruction.imm with
  | some rd, some rs1, some imm =>
    let d := { base with rd := some rd, rs1 := some rs1,
                         imm := some (signExtend imm 12) }
    match validateRegisterNum rd with
    | .error e => .error e
    | .ok _ =>
    match validateRegisterNum rs1 with
    | .error e => .error e
    | .ok _ => .ok d
  | _, _, _ => .error "missing operands"

/-- decoder.js `decodeUFormat`: `(imm & 0xFFFFF) << 12` on 32-bit patterns. -/
def decodeUFormat (instruction : InstrRecord) (base : Decoded) :
    Except String Decoded :=
  match instruction.rd, instruction.imm with
  | some rd, some imm =>
    let d := { base with rd := some rd,
                         imm := some (toInt32 (Int.ofNat ((toUint32Nat imm % 1048576) * 4096))) }
    match validateRegisterNum rd with
    | .error e => .error e
    | .ok _ => .ok d
  | _, _ => .error "missing operands"

/-- ASCII uppercase of a character (JS toUpperCase on the ASCII mnemonics),
written structurally so that it reduces in the kernel. -/
def charUpper (c : Char) : Char :=
  if 'a' ≤ c ∧ c ≤ 'z' then Char.ofNat (c.toNat - 32) else c

/-- ASCII lowercase of a character (JS toLowerCase on register names). -/
def charLower (c : Char) : Char :=
  if 'A' ≤ c ∧ c ≤ 'Z' then Char.ofNat (c.toNat + 32) else c

def strUpper (s : String) : String := String.mk (s.toList.map charUpper)

def strLower (s : String) : String := String.mk (s.toList.map charLower)

/-- decoder.js `decode` applied to a present instruction record. -/
def decode (instruction : InstrRecord) : Except String Decoded :=
  if instruction.opcode = "" then .error "Invalid instruction: missing opcode"
  else
    let opcode := strUpper instruction.opcode
    match opcodesTable.lookup opcode with
    | none => .error ("Unknown opcode: " ++ opcode)
    | some ty =>
      let base : Decoded :=
        ⟨opcode, ty, instruction.format, instruction.index,
         instruction.lineNum, instruction.original,
         none, none, none, none, none, none⟩
      match ty with
      | "R" => decodeRFormat instruction base
      | "I" => decodeIFormat instruction base
      | "IL" => decodeLoadFormat instruction base
      | "S" => decodeStoreFormat instruction base
      | "SB" => decodeBranchFormat instruction base
      | "UJ" => decodeJALFormat instruction base
      | "JALR" => decodeJALRFormat instruction base
      | "U" => decodeUFormat instruction base
      | "HLT" => .ok base
      | _ => .error ("Unknown instruction type: " ++ ty)

/-- decoder.js `decode` as called on `instructions[pc]`, which is JS
`undefined` when pc is out of the array (`!instruction` check). -/
def decodeFetched (instruction : Option InstrRecord) : Except String Decoded :=
  match instruction with
  | none => .error "Invalid instruction: missing opcode"
  | some r => decode r

/-! Helper lemmas about the state operations. -/

lemma toInt32_idem (x : Int) : toInt32 (toInt32 x) = toInt32 x := by
  unfold toInt32
  split <;> split <;> omega

lemma list_set_getD_zero (l : List Int) (r : Nat) (v : Int) (h : r ≠ 0) :
    (l.set r v).getD 0 0 = l.getD 0 0 := by
  cases l with
  | nil => simp
  | cons a t =>
    cases r with
    | zero => exact absurd rfl h
    | succ n => simp [List.set]

lemma list_set_getD_self (l : List Int) (r : Nat) (v : Int) (h : r < l.length) :
    (l.set r v).getD r 0 = v := by
  induction l generalizing r with
  | nil => simp at h
  | cons a t ih =>
    cases r with
    | zero => simp
    | succ n => simpa using ih n (by simpa using h)

@[simp] lemma adapterSetRegister_pc (ms : MachineState) (r : Nat) (v : Int) :
    (adapterSetRegister ms r v).pc = ms.pc := by
  unfold adapterSetRegister; split <;> rfl

@[simp] lemma adapterSetRegister_memory (ms : MachineState) (r : Nat) (v : Int) :
    (adapterSetRegister ms r v).memory = ms.memory := by
  unfold adapterSetRegister; split <;> rfl

lemma adapterSetRegister_getD_zero (ms : MachineState) (r : Nat) (v : Int) :
    (adapterSetRegister ms r v).registers.getD 0 0 = ms.registers.getD 0 0 := by
  unfold adapterSetRegister
  split
  · rfl
  · next h => exact list_set_getD_zero _ _ _ h

@[simp] lemma adapterSetRegister_getElem_zero (ms : MachineState) (r : Nat) (v : Int) :
    (adapterSetRegister ms r v).registers[0]?.getD 0 = ms.registers[0]?.getD 0 := by
  rw [← List.getD_eq_getElem?_getD, ← List.getD_eq_getElem?_getD]
  exact adapterSetRegister_getD_zero ms r v

@[simp] lemma memWrite_registers (ms : MachineState) (a : Int) (v : Nat) :
    (memWrite ms a v).registers = ms.registers := rfl

@[simp] lemma memWrite_pc (ms : MachineState) (a : Int) (v : Nat) :
    (memWrite ms a v).pc = ms.pc := rfl

@[simp] lemma incrementPC_registers (ms : MachineState) :
    (incrementPC ms).registers = ms.registers := rfl

@[simp] lemma incrementPC_pc (ms : MachineState) :
    (incrementPC ms).pc = ms.pc + 1 := rfl

@[simp] lemma setPC_registers (ms : MachineState) (v : Int) :
    (setPC ms v).registers = ms.registers := rfl

@[simp] lemma haltMachine_registers (ms : MachineState) :
    (haltMachine ms).registers = ms.registers := rfl

@[simp] lemma haltMachine_pc (ms : MachineState) :
    (haltMachine ms).pc = ms.pc := rfl

@[simp] lemma executeBEQ_registers (d : Decoded) (ms : MachineState) :
    (executeBEQ d ms).registers = ms.registers := by
  simp only [executeBEQ]; split <;> rfl

@[simp] lemma executeBNE_registers (d : Decoded) (ms : MachineState) :
    (executeBNE d ms).registers = ms.registers := by
  simp only [executeBNE]; split <;> rfl

@[simp] lemma executeBLT_registers (d : Decoded) (ms : MachineState) :
    (executeBLT d ms).registers = ms.registers := by
  simp only [executeBLT]; split <;> rfl

@[simp] lemma executeBGE_registers (d : Decoded) (ms : MachineState) :
    (executeBGE d ms).registers = ms.registers := by
  simp only [executeBGE]; split <;> rfl

@[simp] lemma executeBLTU_registers (d : Decoded) (ms : MachineState) :
    (executeBLTU d ms).registers = ms.registers := by
  simp only [executeBLTU]; split <;> rfl

@[simp] lemma executeBGEU_registers (d : Decoded) (ms : MachineState) :
    (executeBGEU d ms).registers = ms.registers := by
  simp only [executeBGEU]; split <;> rfl

/-! Concrete states and instruction builders used in the theorems below. -/

/-- The freshly reset machine state of the controller: 32 zero registers,
all-zero memory, pc 0, not halted. -/
def initMachineState : MachineState := ⟨List.replicate 32 0, fun _ => 0, 0, false⟩

def hltDecoded : Decoded :=
  ⟨"HLT", "HLT", "HLT", 0, 1, "HLT", none, none, none, none, none, none⟩

def mkADDDecoded (rd rs1 rs2 : Nat) : Decoded :=
  ⟨"ADD", "R", "R", 0, 1, "", some rd, some rs1, some rs2, none, none, none⟩

def mkSWDecoded (rs2 rs1 : Nat) (imm : Int) : Decoded :=
  ⟨"SW", "S", "S", 0, 1, "", none, some rs1, some rs2, some imm, none, none⟩

def pcOfResult (r : Except String MachineState) : Option Int :=
  match r with
  | .ok ms => some ms.pc
  | .error _ => none

def memAtResult (r : Except String MachineState) (a : Int) : Option Nat :=
  match r with
  | .ok ms => some (ms.memory a)
  | .error _ => none

/-- Machine state with x1 = 30 (for the store counterexample). -/
def msStore : MachineState :=
  ⟨(List.replicate 32 0).set 1 30, fun _ => 0, 0, false⟩

/-- Machine state with x1 = 0x7FFFFFFF and x2 = 1 (for the ADD overflow case). -/
def msOverflow : MachineState :=
  ⟨((List.replicate 32 0).set 1 2147483647).set 2 1, fun _ => 0, 0, false⟩

/-- The opcodes whose handlers end in incrementPC: everything except the
branches, the jumps, and HLT. -/
def pcAdvancingOpcodes : List String :=
  ["ADD", "SUB", "SLL", "SLT", "SLTU", "XOR", "SRL", "SRA", "OR", "AND",
   "ADDI", "SLTI", "SLTIU", "XORI", "ORI", "ANDI", "SLLI", "SRLI", "SRAI",
   "LB", "LH", "LW", "LBU", "LHU", "SB", "SH", "SW", "LUI", "AUIPC"]

/-- C3 (amended): every opcode outside the branches, the jumps and HLT
executes successfully on any machine state and advances the program counter
by exactly one instruction slot. -/
theorem pc_advances_outside_branch_jump_hlt :
    ∀ (d : Decoded) (ms : MachineState), d.opcode ∈ pcAdvancingOpcodes →
      ∃ ms', executeInstr d ms = .ok ms' ∧ ms'.pc = ms.pc + 1 := by
  intro d ms h
  obtain ⟨op, ty, fmt, idx, ln, orig, rd, rs1, rs2, imm, sh, lab⟩ := d
  simp only [pcAdvancingOpcodes, List.mem_cons, List.not_mem_nil, or_false] at h
  rcases h with h|h|h|h|h|h|h|h|h|h|h|h|h|h|h|h|h|h|h|h|h|h|h|h|h|h|h|h|h <;>
    subst h <;>
    exact ⟨_, rfl, by
      simp [executeADD, executeSUB, executeSLL, executeSLT, executeSLTU, executeXOR,
        executeSRL, executeSRA, executeOR, executeAND, executeADDI, executeSLTI,
        executeSLTIU, executeXORI, executeORI, executeANDI, executeSLLI, executeSRLI,
        executeSRAI, executeLB, executeLH, executeLW, executeLBU, executeLHU,
        executeSB, executeSH, executeSW, executeLUI, executeAUIPC,
        adapterWriteByte, adapterWriteHalfWord, adapterWriteWord]⟩

/-- C3 (counterexample to the claim as stated): HLT is not a branch or a
jump, yet executing it leaves the program counter unchanged (0, not 0 + 1). -/
theorem hlt_does_not_advance_pc :
    pcOfResult (executeInstr hltDecoded initMachineState) = some 0 ∧
    pcOfResult (executeInstr hltDecoded initMachineState) ≠
      some (initMachineState.pc + 1) := by
  constructor
  · rfl
  · decide

/-- Witness for the amended C3 theorem at the opcode ADD on the reset state. -/
theorem pc_advances_outside_branch_jump_hlt_witness :
    (mkADDDecoded 3 1 2).opcode ∈ pcAdvancingOpcodes ∧
    ∃ ms', executeInstr (mkADDDecoded 3 1 2) initMachineState = .ok ms' ∧
      ms'.pc = initMachineState.pc + 1 :=
  ⟨by decide,
   pc_advances_outside_branch_jump_hlt (mkADDDecoded 3 1 2) initMachineState (by decide)⟩

/-- C4: register 0 is invariant: Simulator.setRegister silently discards a
write to x0 and Simulator.getRegister always reads x0 as 0; moreover no
successfully executed instruction changes the observable value of register 0
(it always reads as 0 through the executor's adapter) nor the underlying
array entry 0. -/
theorem register_zero_invariant :
    (∀ (registers : List Int) (v : Int),
       simSetRegister registers 0 v = .ok registers ∧
       simGetRegister registers 0 = .ok 0) ∧
    (∀ (d : Decoded) (ms ms' : MachineState),
       executeInstr d ms = .ok ms' →
       adapterGetRegister ms' 0 = 0 ∧
       ms'.registers.getD 0 0 = ms.registers.getD 0 0) := by
  constructor
  · intro registers v
    exact ⟨rfl, rfl⟩
  · intro d ms ms' h
    refine ⟨by simp [adapterGetRegister], ?_⟩
    unfold executeInstr at h
    split at h <;>
      first
      | exact Except.noConfusion h
      | (injection h with h; subst h;
         simp [executeADD, executeSUB, executeSLL, executeSLT, executeSLTU, executeXOR,
           executeSRL, executeSRA, executeOR, executeAND, executeADDI, executeSLTI,
           executeSLTIU, executeXORI, executeORI, executeANDI, executeSLLI, executeSRLI,
           executeSRAI, executeLB, executeLH, executeLW, executeLBU, executeLHU,
           executeSB, executeSH, executeSW, executeJAL, executeJALR, executeLUI,
           executeAUIPC, executeHLT, adapterWriteByte, adapterWriteHalfWord,
           adapterWriteWord])

/-- Witness for C4: a write of 12345 to x0 is discarded, x0 reads as 0, and
an executed ADD with rd = x0 leaves register 0 observably 0 and untouched. -/
theorem register_zero_invariant_witness :
    (simSetRegister (List.replicate 32 0) 0 12345 = .ok (List.replicate 32 0) ∧
     simGetRegister (List.replicate 32 0) 0 = .ok 0) ∧
    (adapterGetRegister (executeADD (mkADDDecoded 0 1 2) msOverflow) 0 = 0 ∧
     (executeADD (mkADDDecoded 0 1 2) msOverflow).registers.getD 0 0 =
       msOverflow.registers.getD 0 0) :=
  ⟨register_zero_invariant.1 (List.replicate 32 0) 12345,
   register_zero_invariant.2 (mkADDDecoded 0 1 2) msOverflow _ rfl⟩

/-- C5: ADD computes the sum modulo 2^32 reinterpreted as signed (JS `| 0`),
written into rd. -/
theorem add_wraps_32bit :
    ∀ (ms : MachineState) (rd rs1 rs2 : Nat),
      rd ≠ 0 → rd < 32 → ms.registers.length = 32 →
      ∃ ms', executeInstr (mkADDDecoded rd rs1 rs2) ms = .ok ms' ∧
        adapterGetRegister ms' rd =
          toInt32 (adapterGetRegister ms rs1 + adapterGetRegister ms rs2) := by
  intro ms rd rs1 rs2 hrd hlt hlen
  refine ⟨_, rfl, ?_⟩
  unfold executeADD mkADDDecoded
  simp only [Option.getD_some]
  unfold adapterGetRegister
  rw [if_neg hrd, incrementPC_registers]
  unfold adapterSetRegister
  rw [if_neg hrd]
  exact (list_set_getD_self _ _ _ (by rw [hlen]; exact hlt)).trans (toInt32_idem _)

/-- Witness for C5: ADD x3, x1, x2 with x1 = 0x7FFFFFFF and x2 = 1 wraps to
-2147483648. -/
theorem add_wraps_32bit_witness :
    (3 ≠ 0 ∧ 3 < 32 ∧ msOverflow.registers.length = 32) ∧
    ∃ ms', executeInstr (mkADDDecoded 3 1 2) msOverflow = .ok ms' ∧
      adapterGetRegister ms' 3 = -2147483648 := by
  refine ⟨⟨by decide, by decide, by decide⟩, ?_⟩
  obtain ⟨ms', h1, h2⟩ :=
    add_wraps_32bit msOverflow 3 1 2 (by decide) (by decide) (by decide)
  refine ⟨ms', h1, ?_⟩
  rw [h2]; decide

/-- C2: Simulator.validateAddress implements exactly the claimed checking
(misaligned SW and SH fail, SB never fails alignment, out-of-region fails),
but executor.js routes the Run and Step states through its inline adapter,
which performs no checks at all: a misaligned SW at address 2 silently
writes the word and advances the PC. -/
theorem memory_checks_bypassed :
    ∀ (a : Int),
      (0 ≤ a → a + 4 ≤ 1048576 → a % 4 ≠ 0 →
        validateAddress 1048576 a 4 = .error "Unaligned word access") ∧
      (0 ≤ a → a + 2 ≤ 1048576 → a % 2 ≠ 0 →
        validateAddress 1048576 a 2 = .error "Unaligned half-word access") ∧
      (0 ≤ a → a + 1 ≤ 1048576 → validateAddress 1048576 a 1 = .ok ()) ∧
      (∀ s : Nat, (a < 0 ∨ a + (s : Int) > 1048576) →
        validateAddress 1048576 a s = .error "Memory access violation") ∧
      (pcOfResult (executeInstr (mkSWDecoded 1 0 2) msStore) = some 1 ∧
       memAtResult (executeInstr (mkSWDecoded 1 0 2) msStore) 2 = some 30) := by
  intro a
  refine ⟨?_, ?_, ?_, ?_, ?_, ?_⟩
  · intro h1 h2 h3
    unfold validateAddress
    rw [if_neg (by push_neg; omega), if_neg (by simp), if_pos ⟨rfl, h3⟩]
  · intro h1 h2 h3
    unfold validateAddress
    rw [if_neg (by push_neg; omega), if_pos ⟨rfl, h3⟩]
  · intro h1 h2
    unfold validateAddress
    rw [if_neg (by push_neg; omega), if_neg (by simp), if_neg (by simp)]
  · intro s hs
    unfold validateAddress
    rw [if_pos (by exact_mod_cast hs)]
  · decide
  · decide

/-- Witness for C2 at concrete addresses: SW at 2 and SH at 3 are rejected by
validateAddress, SB at 3 is accepted, 1048575 + 4 is out of the region, and
yet the executed misaligned SW goes through the adapter unchecked. -/
theorem memory_checks_bypassed_witness :
    validateAddress 1048576 2 4 = .error "Unaligned word access" ∧
    validateAddress 1048576 3 2 = .error "Unaligned half-word access" ∧
    validateAddress 1048576 3 1 = .ok () ∧
    validateAddress 1048576 1048575 4 = .error "Memory access violation" ∧
    pcOfResult (executeInstr (mkSWDecoded 1 0 2) msStore) = some 1 :=
  ⟨(memory_checks_bypassed 2).1 (by decide) (by decide) (by decide),
   (memory_checks_bypassed 3).2.1 (by decide) (by decide) (by decide),
   (memory_checks_bypassed 3).2.2.1 (by decide) (by decide),
   (memory_checks_bypassed 1048575).2.2.2.1 4 (by decide),
   (memory_checks_bypassed 0).2.2.2.2.1⟩

/-! C6: evenness of branch and jump immediates at decode time. -/

def isOkB {α : Type} (r : Except String α) : Bool :=
  match r with
  | .ok _ => true
  | .error _ => false

lemma validateRegisterNum_ok (r : Nat) (h : r ≤ 31) :
    validateRegisterNum r = .ok () := by
  unfold validateRegisterNum
  rw [if_neg (by omega)]

lemma signExtend_parity13 (v : Int) : signExtend v 13 % 2 = v % 2 := by
  unfold signExtend toUint32Nat toInt32
  norm_num
  split
  · split <;> omega
  · omega

lemma signExtend_parity21 (v : Int) : signExtend v 21 % 2 = v % 2 := by
  unfold signExtend toUint32Nat toInt32
  norm_num
  split
  · split <;> omega
  · omega

def mkBranchRecord (op : String) (rs1 rs2 : Nat) (imm : Int) : InstrRecord :=
  ⟨op, "SB", 0, 1, "", none, some rs1, some rs2, some imm, none⟩

def mkJALRecord (rd : Nat) (imm : Int) : InstrRecord :=
  ⟨"JAL", "UJ", 0, 1, "", some rd, none, none, some imm, none⟩

def mkJALRRecord (rd rs1 : Nat) (imm : Int) : InstrRecord :=
  ⟨"JALR", "JALR", 0, 1, "", some rd, some rs1, none, some imm, none⟩

/-- C6 (amended): with valid register fields, a branch record decodes
successfully exactly when its immediate is even, a JAL record decodes
successfully exactly when its immediate is even, and a JALR record decodes
successfully regardless of the parity of its immediate (decodeJALRFormat has
no evenness check). -/
theorem branch_jump_evenness :
    ∀ (rd rs1 rs2 : Nat) (imm : Int), rd ≤ 31 → rs1 ≤ 31 → rs2 ≤ 31 →
      ((isOkB (decode (mkBranchRecord "BEQ" rs1 rs2 imm)) = true ↔ imm % 2 = 0) ∧
       (isOkB (decode (mkJALRecord rd imm)) = true ↔ imm % 2 = 0) ∧
       isOkB (decode (mkJALRRecord rd rs1 imm)) = true) := by
  intro rd rs1 rs2 imm hrd hrs1 hrs2
  refine ⟨?_, ?_, ?_⟩
  · have hb : decode (mkBranchRecord "BEQ" rs1 rs2 imm) =
        decodeBranchFormat (mkBranchRecord "BEQ" rs1 rs2 imm)
          ⟨"BEQ", "SB", "SB", 0, 1, "", none, none, none, none, none, none⟩ := rfl
    rw [hb]
    unfold decodeBranchFormat mkBranchRecord
    simp only []
    split
    · next h =>
      simp only [isOkB, Bool.false_eq_true, false_iff]
      rw [signExtend_parity13] at h
      exact h
    · next h =>
      rw [validateRegisterNum_ok rs1 hrs1, validateRegisterNum_ok rs2 hrs2]
      simp only [isOkB, true_iff]
      rw [signExtend_parity13] at h
      omega
  · have hj : decode (mkJALRecord rd imm) =
        decodeJALFormat (mkJALRecord rd imm)
          ⟨"JAL", "UJ", "UJ", 0, 1, "", none, none, none, none, none, none⟩ := rfl
    rw [hj]
    unfold decodeJALFormat mkJALRecord
    simp only []
    split
    · next h =>
      simp only [isOkB, Bool.false_eq_true, false_iff]
      rw [signExtend_parity21] at h
      exact h
    · next h =>
      rw [validateRegisterNum_ok rd hrd]
      simp only [isOkB, true_iff]
      rw [signExtend_parity21] at h
      omega
  · have hr : decode (mkJALRRecord rd rs1 imm) =
        decodeJALRFormat (mkJALRRecord rd rs1 imm)
          ⟨"JALR", "JALR", "JALR", 0, 1, "", none, none, none, none, none, none⟩ := rfl
    rw [hr]
    unfold decodeJALRFormat mkJALRRecord
    simp only []
    rw [validateRegisterNum_ok rd hrd, validateRegisterNum_ok rs1 hrs1]
    rfl

/-- C6 (counterexample to the claim as stated): a JALR record with the odd
immediate 3 decodes successfully — odd JALR immediates are not rejected. -/
theorem jalr_odd_immediate_decodes :
    isOkB (decode (mkJALRRecord 1 1 3)) = true := by decide

/-- Witness for the amended C6 theorem at rd = 1, rs1 = rs2 = 0, imm = 2. -/
theorem branch_jump_evenness_witness :
    ((1 : Nat) ≤ 31 ∧ (0 : Nat) ≤ 31) ∧
    ((isOkB (decode (mkBranchRecord "BEQ" 0 0 2)) = true ↔ (2 : Int) % 2 = 0) ∧
     (isOkB (decode (mkJALRecord 1 2)) = true ↔ (2 : Int) % 2 = 0) ∧
     isOkB (decode (mkJALRRecord 1 0 2)) = true) :=
  ⟨⟨by decide, by decide⟩,
   branch_jump_evenness 1 0 0 2 (by decide) (by decide) (by decide)⟩

/-! parser.js -/

/-- Characters the operand-split regex `[\s,()]+` matches (whitespace of a
single line, comma, parentheses). -/
def isSepChar (c : Char) : Bool :=
  c = ' ' ∨ c = '\t' ∨ c = '\r' ∨ c = '\n' ∨ c = ',' ∨ c = '(' ∨ c = ')'

/-- Whitespace for JS `trim` and the `\s` of the label regexes. -/
def isWsChar (c : Char) : Bool :=
  c = ' ' ∨ c = '\t' ∨ c = '\r' ∨ c = '\n'

def splitPartsAux : List Char → List Char → List String
  | [], acc => if acc.isEmpty then [] else [String.mk acc.reverse]
  | c :: cs, acc =>
    if isSepChar c then
      if acc.isEmpty then splitPartsAux cs []
      else String.mk acc.reverse :: splitPartsAux cs []
    else splitPartsAux cs (c :: acc)

/-- `line.split(/[\s,()]+/).filter(part => part.length > 0)`. -/
def splitParts (line : String) : List String := splitPartsAux line.toList []

def trimChars (cs : List Char) : List Char :=
  ((cs.dropWhile isWsChar).reverse.dropWhile isWsChar).reverse

/-- JS `trim` (restricted to the ASCII whitespace occurring in source lines). -/
def strTrim (s : String) : String := String.mk (trimChars s.toList)

/-- parser.js `cleanLine`: drop everything from the first `#`, then trim. -/
def cleanLine (line : String) : String :=
  strTrim (String.mk (line.toList.takeWhile (fun c => c ≠ '#')))

def strContainsColon (s : String) : Bool := s.toList.any (fun c => c = ':')

def splitOnCharAux (sep : Char) : List Char → List Char → List String
  | [], acc => [String.mk acc.reverse]
  | x :: xs, acc =>
    if x = sep then String.mk acc.reverse :: splitOnCharAux sep xs []
    else splitOnCharAux sep xs (x :: acc)

/-- JS `s.split(sep)` for a single-character separator (empty pieces kept). -/
def splitOnChar (sep : Char) (s : String) : List String :=
  splitOnCharAux sep s.toList []

/-- A `\w` character of the label regexes: alphanumeric or underscore. -/
def isWordChar (c : Char) : Bool := c.isAlphanum ∨ c = '_'

/-- The regex `^(\w+):\s*(.*)` of pass 1, returning the label name and the
trimmed rest of the line when it matches. -/
def labelSplit (c : String) : Option (String × String) :=
  let cs := c.toList
  let name := cs.takeWhile isWordChar
  if name.isEmpty then none
  else
    match cs.drop name.length with
    | ':' :: after => some (String.mk name, strTrim (String.mk after))
    | _ => none

/-- The label-only test `^\w+:\s*$` of pass 2. -/
def isLabelOnly (c : String) : Bool :=
  let cs := c.toList
  let name := cs.takeWhile isWordChar
  if name.isEmpty then false
  else
    match cs.drop name.length with
    | ':' :: after => after.all isWsChar
    | _ => false

/-- Register-name table of parser.js (ABI aliases and xN names). -/
def registerMap : List (String × Nat) :=
  [("zero", 0), ("x0", 0), ("ra", 1), ("x1", 1), ("sp", 2), ("x2", 2),
   ("gp", 3), ("x3", 3), ("tp", 4), ("x4", 4), ("t0", 5), ("x5", 5),
   ("t1", 6), ("x6", 6), ("t2", 7), ("x7", 7), ("s0", 8), ("fp", 8),
   ("x8", 8), ("s1", 9), ("x9", 9), ("a0", 10), ("x10", 10), ("a1", 11),
   ("x11", 11), ("a2", 12), ("x12", 12), ("a3", 13), ("x13", 13),
   ("a4", 14), ("x14", 14), ("a5", 15), ("x15", 15), ("a6", 16),
   ("x16", 16), ("a7", 17), ("x17", 17), ("s2", 18), ("x18", 18),
   ("s3", 19), ("x19", 19), ("s4", 20), ("x20", 20), ("s5", 21),
   ("x21", 21), ("s6", 22), ("x22", 22), ("s7", 23), ("x23", 23),
   ("s8", 24), ("x24", 24), ("s9", 25), ("x25", 25), ("s10", 26),
   ("x26", 26), ("s11", 27), ("x27", 27), ("t3", 28), ("x28", 28),
   ("t4", 29), ("x29", 29), ("t5", 30), ("x30", 30), ("t6", 31),
   ("x31", 31)]

/-- Instruction-format table of parser.js. -/
def instructionFormats : List (String × String) :=
  [("ADD", "R"), ("SUB", "R"), ("SLL", "R"), ("SLT", "R"), ("SLTU", "R"),
   ("XOR", "R"), ("SRL", "R"), ("SRA", "R"), ("OR", "R"), ("AND", "R"),
   ("ADDI", "I"), ("SLTI", "I"), ("SLTIU", "I"), ("XORI", "I"),
   ("ORI", "I"), ("ANDI", "I"), ("SLLI", "I"), ("SRLI", "I"), ("SRAI", "I"),
   ("LB", "IL"), ("LH", "IL"), ("LW", "IL"), ("LBU", "IL"), ("LHU", "IL"),
   ("SB", "S"), ("SH", "S"), ("SW", "S"),
   ("BEQ", "SB"), ("BNE", "SB"), ("BLT", "SB"), ("BGE", "SB"),
   ("BLTU", "SB"), ("BGEU", "SB"),
   ("JAL", "UJ"), ("JALR", "JALR"),
   ("LUI", "U"), ("AUIPC", "U"),
   ("HLT", "HLT")]

/-- parser.js `parseRegister`: lowercase then look up in the map. -/
def parseRegister (reg : String) : Except String Nat :=
  match registerMap.lookup (strLower reg) with
  | some n => .ok n
  | none => .error ("Invalid register: " ++ reg)

/-- Value of one digit character in the given radix (JS parseInt digits). -/
def digitVal (radix : Nat) (c : Char) : Option Nat :=
  let v :=
    if '0' ≤ c ∧ c ≤ '9' then c.toNat - 48
    else if 'a' ≤ c ∧ c ≤ 'z' then c.toNat - 97 + 10
    else if 'A' ≤ c ∧ c ≤ 'Z' then c.toNat - 65 + 10
    else 99
  if v < radix then some v else none

def digitsAcc (radix : Nat) : List Char → Nat → Nat
  | [], acc => acc
  | c :: cs, acc =>
    match digitVal radix c with
    | some d => digitsAcc radix cs (acc * radix + d)
    | none => acc

/-- Digit run of JS parseInt: longest valid prefix (a 0x/0X prefix is
accepted when the radix is 16), NaN (none) when there is no leading digit. -/
def parseUnsignedInt (radix : Nat) (cs0 : List Char) : Option Nat :=
  let cs :=
    if radix = 16 then
      match cs0 with
      | '0' :: x :: rest => if x = 'x' ∨ x = 'X' then rest else cs0
      | _ => cs0
    else cs0
  match cs with
  | c :: _ => if (digitVal radix c).isSome then some (digitsAcc radix cs 0) else none
  | [] => none

/-- JS `parseInt(s, radix)` for the radixes 2, 10, 16 used by the parser
(whitespace trimmed, optional sign, longest digit prefix; exact, which
matches JS on every value small enough to pass the range checks). -/
def jsParseInt (s : String) (radix : Nat) : Option Int :=
  match trimChars s.toList with
  | '-' :: rest => (parseUnsignedInt radix rest).map (fun n => -(n : Int))
  | '+' :: rest => (parseUnsignedInt radix rest).map (fun n => (n : Int))
  | cs => (parseUnsignedInt radix cs).map (fun n => (n : Int))

def startsWith2 (s : String) (a b : Char) : Bool :=
  match s.toList with
  | x :: y :: _ => x = a ∧ y = b
  | _ => false

def strDrop2 (s : String) : String := String.mk (s.toList.drop 2)

/-- Numeric-literal dispatch of parser.js `parseImmediate`: hex for a 0x/0X
prefix, binary for 0b/0B (prefix stripped), decimal otherwise (the negative
and plain branches of the source both call `parseInt(imm, 10)`). -/
def parseImmediateValue (imm : String) : Option Int :=
  if startsWith2 imm '0' 'x' ∨ startsWith2 imm '0' 'X' then jsParseInt imm 16
  else if startsWith2 imm '0' 'b' ∨ startsWith2 imm '0' 'B' then
    jsParseInt (strDrop2 imm) 2
  else jsParseInt imm 10

/-- parser.js `parseImmediate`: parse the literal, reject NaN, then check
the signed range of the format's bit width
(`maxValue = (1 << (bits-1)) - 1`, `minValue = -(1 << (bits-1))`). -/
def parseImmediate (imm : String) (bits : Nat) : Except String Int :=
  match parseImmediateValue imm with
  | none => .error ("Invalid immediate value: " ++ imm)
  | some value =>
    if value > (2 ^ (bits - 1) - 1 : Int) ∨ value < -(2 ^ (bits - 1) : Int) then
      .error "Immediate value does not fit"
    else .ok value

def parseRFormat (instruction : InstrRecord) (parts : List String) :
    Except String InstrRecord :=
  match parts with
  | [_, p1, p2, p3] =>
    match parseRegister p1 with
    | .error e => .error e
    | .ok rd =>
    match parseRegister p2 with
    | .error e => .error e
    | .ok rs1 =>
    match parseRegister p3 with
    | .error e => .error e
    | .ok rs2 =>
      .ok { instruction with rd := some rd, rs1 := some rs1, rs2 := some rs2 }
  | _ => .error (instruction.opcode ++ " requires 3 operands (rd, rs1, rs2)")

def parseIFormat (instruction : InstrRecord) (parts : List String) :
    Except String InstrRecord :=
  match parts with
  | [_, p1, p2, p3] =>
    match parseRegister p1 with
    | .error e => .error e
    | .ok rd =>
    match parseRegister p2 with
    | .error e => .error e
    | .ok rs1 =>
    match parseImmediate p3 12 with
    | .error e => .error e
    | .ok imm =>
      .ok { instruction with rd := some rd, rs1 := some rs1, imm := some imm }
  | _ => .error (instruction.opcode ++ " requires 3 operands (rd, rs1, imm)")

def parseLoadFormat (instruction : InstrRecord) (parts : List String) :
    Except String InstrRecord :=
  match parts with
  | [_, _, _] => .error (instruction.opcode ++ " requires format: rd, imm(rs1) or rd, rs1, imm")
  | [_, p1, p2, p3] =>
    match parseRegister p1 with
    | .error e => .error e
    | .ok rd =>
    match parseRegister p2 with
    | .error e => .error e
    | .ok rs1 =>
    match parseImmediate p3 12 with
    | .error e => .error e
    | .ok imm =>
      .ok { instruction with rd := some rd, rs1 := some rs1, imm := some imm }
  | [_, p1, p2, p3, _] =>
    match parseRegister p1 with
    | .error e => .error e
    | .ok rd =>
    match parseImmediate p2 12 with
    | .error e => .error e
    | .ok imm =>
    match parseRegister p3 with
    | .error e => .error e
    | .ok rs1 =>
      .ok { instruction with rd := some rd, rs1 := some rs1, imm := some imm }
  | _ => .error (instruction.opcode ++ " invalid format")

def parseStoreFormat (instruction : InstrRecord) (parts : List String) :
    Except String InstrRecord :=
  match parts with
  | [_, p1, p2, p3] =>
    match parseRegister p1 with
    | .error e => .error e
    | .ok rs2 =>
    match parseRegister p2 with
    | .error e => .error e
    | .ok rs1 =>
    match parseImmediate p3 12 with
    | .error e => .error e
    | .ok imm =>
      .ok { instruction with rs2 := some rs2, rs1 := some rs1, imm := some imm }
  | [_, p1, p2, p3, _] =>
    match parseRegister p1 with
    | .error e => .error e
    | .ok rs2 =>
    match parseImmediate p2 12 with
    | .error e => .error e
    | .ok imm =>
    match parseRegister p3 with
    | .error e => .error e
    | .ok rs1 =>
      .ok { instruction with rs2 := some rs2, rs1 := some rs1, imm := some imm }
  | _ => .error (instruction.opcode ++ " invalid format")

/-- parser.js `parseBranchFormat`: a third operand that is a previously
defined label resolves to `(targetIndex - currentIndex) * 4`; otherwise it is
parsed as a 13-bit literal. -/
def parseBranchFormat (labels : List (String × Nat)) (instruction : InstrRecord)
    (parts : List String) : Except String InstrRecord :=
  match parts with
  | [_, p1, p2, p3] =>
    match parseRegister p1 with
    | .error e => .error e
    | .ok rs1 =>
    match parseRegister p2 with
    | .error e => .error e
    | .ok rs2 =>
      let ins := { instruction with rs1 := some rs1, rs2 := some rs2 }
      match labels.lookup p3 with
      | some t =>
        .ok { ins with label := some p3,
                       imm := some (((t : Int) - (ins.index : Int)) * 4) }
      | none =>
        match parseImmediate p3 13 with
        | .error e => .error e
        | .ok imm => .ok { ins with imm := some imm }
  | _ => .error (instruction.opcode ++ " requires 3 operands (rs1, rs2, label/offset)")

def parseJALFormat (labels : List (String × Nat)) (instruction : InstrRecord)
    (parts : List String) : Except String InstrRecord :=
  match parts with
  | [_, p1] =>
    let ins := { instruction with rd := some 1 }
    match labels.lookup p1 with
    | some t =>
      .ok { ins with label := some p1,
                     imm := some (((t : Int) - (ins.index : Int)) * 4) }
    | none =>
      match parseImmediate p1 21 with
      | .error e => .error e
      | .ok imm => .ok { ins with imm := some imm }
  | [_, p1, p2] =>
    match parseRegister p1 with
    | .error e => .error e
    | .ok rd =>
      let ins := { instruction with rd := some rd }
      match labels.lookup p2 with
      | some t =>
        .ok { ins with label := some p2,
                       imm := some (((t : Int) - (ins.index : Int)) * 4) }
      | none =>
        match parseImmediate p2 21 with
        | .error e => .error e
        | .ok imm => .ok { ins with imm := some imm }
  | _ => .error (instruction.opcode ++ " requires 1 or 2 operands")

def parseJALRFormat (instruction : InstrRecord) (parts : List String) :
    Except String InstrRecord :=
  match parts with
  | [_, p1] =>
    match parseRegister p1 with
    | .error e => .error e
    | .ok rs1 => .ok { instruction with rd := some 1, rs1 := some rs1, imm := some 0 }
  | [_, p1, p2] =>
    match parseRegister p1 with
    | .error e => .error e
    | .ok rd =>
    match parseRegister p2 with
    | .error e => .error e
    | .ok rs1 => .ok { instruction with rd := some rd, rs1 := some rs1, imm := some 0 }
  | [_, p1, p2, p3] =>
    match parseRegister p1 with
    | .error e => .error e
    | .ok rd =>
    match parseRegister p2 with
    | .error e => .error e
    | .ok rs1 =>
    match parseImmediate p3 12 with
    | .error e => .error e
    | .ok imm => .ok { instruction with rd := some rd, rs1 := some rs1, imm := some imm }
  | _ => .error (instruction.opcode ++ " invalid format")

def parseUFormat (instruction : InstrRecord) (parts : List String) :
    Except String InstrRecord :=
  match parts with
  | [_, p1, p2] =>
    match parseRegister p1 with
    | .error e => .error e
    | .ok rd =>
    match parseImmediate p2 20 with
    | .error e => .error e
    | .ok imm => .ok { instruction with rd := some rd, imm := some imm }
  | _ => .error (instruction.opcode ++ " requires 2 operands (rd, imm)")

/-- parser.js `parseInstruction`: split the line, uppercase the mnemonic,
look up its format and dispatch. -/
def parseInstruction (labels : List (String × Nat)) (line : String)
    (index lineNum : Nat) : Except String InstrRecord :=
  match splitParts line with
  | [] => .error "Empty instruction"
  | p0 :: rest =>
    let opcode := strUpper p0
    match instructionFormats.lookup opcode with
    | none => .error ("Unknown instruction: " ++ opcode)
    | some format =>
      let instruction : InstrRecord :=
        ⟨opcode, format, index, lineNum, line, none, none, none, none, none⟩
      match format with
      | "R" => parseRFormat instruction (p0 :: rest)
      | "I" => parseIFormat instruction (p0 :: rest)
      | "IL" => parseLoadFormat instruction (p0 :: rest)
      | "S" => parseStoreFormat instruction (p0 :: rest)
      | "SB" => parseBranchFormat labels instruction (p0 :: rest)
      | "UJ" => parseJALFormat labels instruction (p0 :: rest)
      | "JALR" => parseJALRFormat instruction (p0 :: rest)
      | "U" => parseUFormat instruction (p0 :: rest)
      | "HLT" => .ok instruction
      | _ => .error ("Unknown format: " ++ format)

/-- Pass 1 of parser.js `parse`: collect labels (bound to the current
instruction index) and replace a label line carrying an instruction by that
instruction (the JS code mutates the lines array in place). -/
def parsePass1 : List String → Nat → List (String × Nat) →
    List (String × Nat) × List String
  | [], _idx, labels => (labels, [])
  | line :: rest, idx, labels =>
    let c := cleanLine line
    if c = "" then
      let (ls, rs) := parsePass1 rest idx labels
      (ls, line :: rs)
    else if strContainsColon c then
      match labelSplit c with
      | some (name, restOfLine) =>
        let labels1 := (name, idx) :: labels
        if restOfLine ≠ "" then
          let (ls, rs) := parsePass1 rest (idx + 1) labels1
          (ls, restOfLine :: rs)
        else
          let (ls, rs) := parsePass1 rest idx labels1
          (ls, line :: rs)
      | none =>
        let (ls, rs) := parsePass1 rest (idx + 1) labels
        (ls, line :: rs)
    else
      let (ls, rs) := parsePass1 rest (idx + 1) labels
      (ls, line :: rs)

/-- Pass 2 of parser.js `parse`: skip blank and label-only lines, strip a
leading label, parse each remaining line, prefixing errors with the 1-based
line number. -/
def parsePass2 (labels : List (String × Nat)) :
    List String → Nat → Nat → Except String (List InstrRecord)
  | [], _idx, _ln => .ok []
  | line :: rest, idx, ln =>
    let c := cleanLine line
    if c = "" then parsePass2 labels rest idx (ln + 1)
    else if isLabelOnly c then parsePass2 labels rest idx (ln + 1)
    else
      let instructionLine :=
        if strContainsColon c then strTrim ((splitOnChar ':' c).getD 1 "") else c
      if instructionLine = "" then parsePass2 labels rest idx (ln + 1)
      else
        match parseInstruction labels instructionLine idx (ln + 1) with
        | .error e => .error ("Line " ++ toString (ln + 1) ++ ": " ++ e)
        | .ok ins =>
          match parsePass2 labels rest (idx + 1) (ln + 1) with
          | .error e => .error e
          | .ok list => .ok (ins :: list)

/-- parser.js `parse`: split into lines, run both passes. -/
def parse (code : String) : Except String (List InstrRecord) :=
  let lines := splitOnChar '\n' code
  let p1 := parsePass1 lines 0 []
  parsePass2 p1.1 p1.2 0 0

/-! simulatorController.js: the Run, Step and state-serialization model. -/

/-- The serialized state shape returned by the endpoints: registers, the
first 256 bytes of memory (`memory.slice(0, 256)`), pc, halted.  Note there
is no instructions field. -/
structure StateView where
  registers : List Int
  memory : List Nat
  pc : Int
  halted : Bool
deriving DecidableEq, Repr

def serializeMem (m : Int → Nat) : List Nat :=
  (List.range 256).map (fun i => m (i : Int))

def viewOfMachine (ms : MachineState) : StateView :=
  ⟨ms.registers, serializeMem ms.memory, ms.pc, ms.halted⟩

/-- The `simulatorState` object of the step endpoint; `instructions` is
`none` when the field is absent from the supplied snapshot (JS undefined). -/
structure StepState where
  registers : List Int
  memory : Int → Nat
  pc : Int
  instructions : Option (List InstrRecord)
  halted : Bool

def machineOfStep (st : StepState) : MachineState :=
  ⟨st.registers, st.memory, st.pc, st.halted⟩

/-- `instructions[pc]`, which is JS undefined when pc is out of the array. -/
def getIdx (instrs : List InstrRecord) (pc : Int) : Option InstrRecord :=
  if pc < 0 then none else instrs[pc.toNat]?

/-- The `while (!halted && pc < instructions.length)` loop of
executeProgram, with explicit fuel (the theorems below use enough fuel that
the loop condition is false at the result, i.e. the loop has terminated). -/
def runLoop (instrs : List InstrRecord) : Nat → MachineState → Except String MachineState
  | 0, ms => .ok ms
  | fuel + 1, ms =>
    if ms.halted = false ∧ ms.pc < (instrs.length : Int) then
      match decodeFetched (getIdx instrs ms.pc) with
      | .error e => .error e
      | .ok d =>
        match executeInstr d ms with
        | .error e => .error e
        | .ok ms1 => runLoop instrs fuel ms1
    else .ok ms

/-- simulatorController.js `executeProgram`: reset the state, parse, run the
loop, return the serialized state. -/
def executeProgram (fuel : Nat) (code : String) : Except String StateView :=
  match parse code with
  | .error e => .error e
  | .ok instrs =>
    match runLoop instrs fuel initMachineState with
    | .error e => .error e
    | .ok ms => .ok (viewOfMachine ms)

/-- simulatorController.js `stepExecution`, applied to the effective
simulator state (the supplied snapshot when one was sent).  The first
access is `simulatorState.instructions.length`: when the snapshot has no
instructions field this throws a TypeError, which the catch block turns
into an error response; when the cached list is empty the source is parsed;
then at most one instruction executes. -/
def stepExecutionModel (code : String) (st : StepState) : Except String StateView :=
  match st.instructions with
  | none => .error "TypeError: Cannot read properties of undefined (reading length)"
  | some cached =>
    match (if cached.isEmpty then parse code else .ok cached :
           Except String (List InstrRecord)) with
    | .error e => .error e
    | .ok instrs =>
      if (machineOfStep st).halted = false ∧
         (machineOfStep st).pc < (instrs.length : Int) then
        match decodeFetched (getIdx instrs (machineOfStep st).pc) with
        | .error e => .error e
        | .ok d =>
          match executeInstr d (machineOfStep st) with
          | .error e => .error e
          | .ok ms1 => .ok (viewOfMachine ms1)
      else .ok (viewOfMachine (machineOfStep st))

/-- Threading a returned state snapshot back as the next step's
currentState: the wire shape has registers, the 256 serialized memory
bytes, pc and halted — and no instructions field. -/
def stateOfView (v : StateView) : StepState :=
  ⟨v.registers, fun a => if 0 ≤ a then v.memory.getD a.toNat 0 else 0,
   v.pc, none, v.halted⟩

/-- The module-level `simulatorState` a fresh server starts with
(instructions is the empty array, so the first step parses the source). -/
def serverInitState : StepState :=
  ⟨List.replicate 32 0, fun _ => 0, 0, some [], false⟩

def c1code : String := "ADDI x1, x0, 1\nADDI x2, x0, 2"

/-- State after the first Step of c1code: x1 = 1, pc = 1. -/
def c1view1 : StateView :=
  ⟨(List.replicate 32 0).set 1 1, List.replicate 256 0, 1, false⟩

/-- State after a full Run of c1code: x1 = 1, x2 = 2, pc = 2. -/
def c1runView : StateView :=
  ⟨((List.replicate 32 0).set 1 1).set 2 2, List.replicate 256 0, 2, false⟩

/-- C1 (the Step/Run divergence): every snapshot returned by Step lacks the
instructions field, and stepExecution crashes (TypeError turned into an
error response) on any such threaded snapshot; concretely, the first Step
of c1code succeeds, threading its returned snapshot into the second Step
fails, while a single Run of the same source succeeds with the final state. -/
theorem step_threading_breaks :
    (∀ (code : String) (v : StateView),
       stepExecutionModel code (stateOfView v) =
         .error "TypeError: Cannot read properties of undefined (reading length)") ∧
    stepExecutionModel c1code serverInitState = .ok c1view1 ∧
    stepExecutionModel c1code (stateOfView c1view1) =
      .error "TypeError: Cannot read properties of undefined (reading length)" ∧
    executeProgram 10 c1code = .ok c1runView := by
  refine ⟨fun code v => rfl, ?_, rfl, ?_⟩
  · rfl
  · rfl

def hltRecord : InstrRecord :=
  ⟨"HLT", "HLT", 0, 1, "HLT", none, none, none, none, none⟩

def haltedOfView (r : Except String StateView) : Option Bool :=
  match r with
  | .ok v => some v.halted
  | .error _ => none

/-- A step state whose pc (= 1) is outside [0, instructionCount) for its
single cached instruction and which is not halted. -/
def c9state : StepState :=
  ⟨List.replicate 32 0, fun _ => 0, 1, some [hltRecord], false⟩

/-- C9 (counterexample to the claim as stated): a Step on a non-halted state
whose pc is out of range returns halted = false — an out-of-range pc does
not set the halted flag in the step path. -/
theorem step_out_of_range_does_not_halt :
    haltedOfView (stepExecutionModel "" c9state) = some false := rfl

/-- C9 (amended): a Step on a state that is already halted or whose pc is at
or past the instruction count executes no instruction: the response is the
serialization of the unchanged state (same registers, memory, pc, and the
halted flag returned unchanged). -/
theorem step_noop_when_halted_or_out_of_range :
    ∀ (code : String) (st : StepState) (instrs : List InstrRecord),
      st.instructions = some instrs → instrs ≠ [] →
      (st.halted = true ∨ (instrs.length : Int) ≤ st.pc) →
      stepExecutionModel code st = .ok (viewOfMachine (machineOfStep st)) := by
  intro code st instrs hinstr hne hcond
  have hfalse : ¬((machineOfStep st).halted = false ∧
      (machineOfStep st).pc < (instrs.length : Int)) := by
    rintro ⟨h1, h2⟩
    simp only [machineOfStep] at h1 h2
    rcases hcond with h | h
    · rw [h] at h1; exact Bool.noConfusion h1
    · omega
  obtain ⟨regs, mem, pcv, instrsF, haltedv⟩ := st
  cases instrsF with
  | none => exact Option.noConfusion hinstr
  | some cached =>
    injection hinstr with hinstr
    subst hinstr
    cases cached with
    | nil => exact absurd rfl hne
    | cons a t =>
      change (if (machineOfStep ⟨regs, mem, pcv, some (a :: t), haltedv⟩).halted = false ∧
          (machineOfStep ⟨regs, mem, pcv, some (a :: t), haltedv⟩).pc <
            (((a :: t) : List InstrRecord).length : Int) then _ else _) = _
      rw [if_neg hfalse]

/-- Witness for the amended C9 theorem: pc = 5 on a one-instruction cache. -/
def c9wstate : StepState :=
  ⟨List.replicate 32 0, fun _ => 0, 5, some [hltRecord], false⟩

theorem step_noop_when_halted_or_out_of_range_witness :
    (c9wstate.instructions = some [hltRecord] ∧
     [hltRecord] ≠ ([] : List InstrRecord) ∧
     (c9wstate.halted = true ∨ (([hltRecord].length : Nat) : Int) ≤ c9wstate.pc)) ∧
    stepExecutionModel "X" c9wstate = .ok (viewOfMachine (machineOfStep c9wstate)) :=
  ⟨⟨rfl, by decide, Or.inr (by decide)⟩,
   step_noop_when_halted_or_out_of_range "X" c9wstate [hltRecord] rfl
     (by decide) (Or.inr (by decide))⟩

/-! C7: label resolution in parseBranchFormat. -/

def c7labels : List (String × Nat) := [("L", 2)]

def c7base : InstrRecord :=
  ⟨"BEQ", "SB", 0, 1, "BEQ x0, x0, L", none, none, none, none, none⟩

/-- C7 (counterexample to the claim as stated): the branch written with the
label L (bound to index 2, so immediate (2-0)*4 = 8) and the identical
branch written with the literal 8 parse to records with the same immediate —
but not to the same record: the label path additionally stores the label
name. -/
theorem branch_label_record_not_identical :
    parseBranchFormat c7labels c7base ["BEQ", "x0", "x0", "L"] =
      .ok ⟨"BEQ", "SB", 0, 1, "BEQ x0, x0, L", none, some 0, some 0, some 8, some "L"⟩ ∧
    parseBranchFormat c7labels c7base ["BEQ", "x0", "x0", "8"] =
      .ok ⟨"BEQ", "SB", 0, 1, "BEQ x0, x0, L", none, some 0, some 0, some 8, none⟩ ∧
    (⟨"BEQ", "SB", 0, 1, "BEQ x0, x0, L", none, some 0, some 0, some 8, some "L"⟩ : InstrRecord) ≠
      ⟨"BEQ", "SB", 0, 1, "BEQ x0, x0, L", none, some 0, some 0, some 8, none⟩ :=
  ⟨rfl, rfl, by decide⟩

/-- C7 (amended): a branch to a label bound to index t parses with immediate
(t - currentIndex) * 4, equal to the record parsed from the equivalent
literal byte offset except for the extra label field; and the executor's
behaviour never depends on the label field, so the two records execute
identically. -/
theorem branch_label_same_imm_and_execution :
    ∀ (labels : List (String × Nat)) (base : InstrRecord)
      (p0 p1 p2 lbl lit : String) (t rs1 rs2 : Nat),
      labels.lookup lbl = some t →
      parseRegister p1 = .ok rs1 → parseRegister p2 = .ok rs2 →
      labels.lookup lit = none →
      parseImmediate lit 13 = .ok (((t : Int) - (base.index : Int)) * 4) →
      (parseBranchFormat labels base [p0, p1, p2, lbl] =
         .ok { base with rs1 := some rs1, rs2 := some rs2, label := some lbl,
                         imm := some (((t : Int) - (base.index : Int)) * 4) } ∧
       parseBranchFormat labels base [p0, p1, p2, lit] =
         .ok { base with rs1 := some rs1, rs2 := some rs2,
                         imm := some (((t : Int) - (base.index : Int)) * 4) } ∧
       (∀ (d : Decoded) (lab : Option String) (ms : MachineState),
          executeInstr { d with label := lab } ms = executeInstr d ms)) := by
  intro labels base p0 p1 p2 lbl lit t rs1 rs2 hlbl hp1 hp2 hlitNone hlit
  refine ⟨?_, ?_, ?_⟩
  · simp only [parseBranchFormat, hp1, hp2, hlbl]
  · simp only [parseBranchFormat, hp1, hp2, hlitNone, hlit]
  · intro d lab ms
    obtain ⟨op, ty, fmt, idx, ln, orig, rd, rs1x, rs2x, immx, shx, labx⟩ := d
    rfl

/-- Witness for the amended C7 theorem at the concrete two-instruction-ahead
label L and the literal 8. -/
theorem branch_label_same_imm_and_execution_witness :
    (c7labels.lookup "L" = some 2 ∧ parseRegister "x0" = .ok 0 ∧
     c7labels.lookup "8" = none ∧
     parseImmediate "8" 13 = .ok (((2 : Int) - (c7base.index : Int)) * 4)) ∧
    (parseBranchFormat c7labels c7base ["BEQ", "x0", "x0", "L"] =
       .ok { c7base with rs1 := some 0, rs2 := some 0, label := some "L",
                         imm := some (((2 : Int) - (c7base.index : Int)) * 4) } ∧
     parseBranchFormat c7labels c7base ["BEQ", "x0", "x0", "8"] =
       .ok { c7base with rs1 := some 0, rs2 := some 0,
                         imm := some (((2 : Int) - (c7base.index : Int)) * 4) } ∧
     (∀ (d : Decoded) (lab : Option String) (ms : MachineState),
        executeInstr { d with label := lab } ms = executeInstr d ms)) :=
  ⟨⟨rfl, rfl, rfl, rfl⟩,
   branch_label_same_imm_and_execution c7labels c7base "BEQ" "x0" "x0" "L" "8" 2 0 0
     rfl rfl rfl rfl rfl⟩

/-- C8: an I-format immediate literal of 2048 fails the range check, 2047
succeeds, and in general every immediate parseImmediate accepts lies in the
signed range of the format's bit width. -/
theorem immediate_range_enforced :
    (isOkB (parseImmediate "2048" 12) = false ∧
     parseImmediate "2047" 12 = .ok 2047) ∧
    (∀ (s : String) (bits : Nat) (v : Int),
       parseImmediate s bits = .ok v →
       -(2 ^ (bits - 1) : Int) ≤ v ∧ v ≤ 2 ^ (bits - 1) - 1) := by
  refine ⟨⟨rfl, rfl⟩, ?_⟩
  intro s bits v h
  unfold parseImmediate at h
  cases hval : parseImmediateValue s with
  | none => rw [hval] at h; exact Except.noConfusion h
  | some value =>
    rw [hval] at h
    simp only [] at h
    split at h
    · exact Except.noConfusion h
    · next hcond =>
      injection h with h
      subst h
      exact ⟨not_lt.mp fun hh => hcond (Or.inr hh),
             not_lt.mp fun hh => hcond (Or.inl hh)⟩

/-- Witness for C8's general range property at the literal 2047. -/
theorem immediate_range_enforced_witness :
    parseImmediate "2047" 12 = .ok 2047 ∧
    (-(2 ^ (12 - 1) : Int) ≤ 2047 ∧ (2047 : Int) ≤ 2 ^ (12 - 1) - 1) :=
  ⟨rfl, immediate_range_enforced.2 "2047" 12 2047 rfl⟩

/-! C10: HLT parsing ignores trailing operand text. -/

lemma instructionFormats_lookup_HLT :
    instructionFormats.lookup "HLT" = some "HLT" := rfl

/-- C10: any line whose first token uppercases to HLT parses successfully no
matter what trailing operand text follows — the operand count is never
checked and the record carries only the opcode, format, index, line number
and original text (all operand fields absent). -/
theorem hlt_ignores_operands :
    ∀ (labels : List (String × Nat)) (line : String) (index lineNum : Nat)
      (p0 : String) (rest : List String),
      splitParts line = p0 :: rest → strUpper p0 = "HLT" →
      parseInstruction labels line index lineNum =
        .ok ⟨"HLT", "HLT", index, lineNum, line, none, none, none, none, none⟩ := by
  intro labels line index lineNum p0 rest hsplit hupper
  unfold parseInstruction
  rw [hsplit]
  simp only [hupper, instructionFormats_lookup_HLT]

/-- Witness for C10: the line with the spurious operands x1 and 99 parses. -/
theorem hlt_ignores_operands_witness :
    (splitParts "HLT x1, 99" = "HLT" :: ["x1", "99"] ∧ strUpper "HLT" = "HLT") ∧
    parseInstruction [] "HLT x1, 99" 0 1 =
      .ok ⟨"HLT", "HLT", 0, 1, "HLT x1, 99", none, none, none, none, none⟩ :=
  ⟨⟨rfl, rfl⟩,
   hlt_ignores_operands [] "HLT x1, 99" 0 1 "HLT" ["x1", "99"] rfl rfl⟩
